import Mathlib

/-!
Shallow embedding of the order-engine slice of the restaurant backend:
the Dish stock primitives, the Table occupancy primitives, the Order
status machinery, and the three route handlers createOrder,
setOrderStatus and cancelOrder from src/routes/orders.js.

Mongo documents become Lean structures; ObjectIds become Nat; JS numbers
holding money become Rat (exact arithmetic; the handlers only add,
multiply and divide by 100, and every concrete value we evaluate is
reachable exactly); Date values become a Nat timestamp supplied by the
caller; the database becomes an explicit DBState record threaded through
the handlers; HTTP error responses become an Except error.
-/

namespace RestaurantBackend

inductive TableStatus where
  | available
  | occupied
  | reserved
  | maintenance
  | out_of_service
deriving DecidableEq, Repr, Inhabited

inductive OrderType where
  | dine_in
  | takeout
  | delivery
deriving DecidableEq, Repr, Inhabited

inductive OrderStatus where
  | pending
  | confirmed
  | preparing
  | ready
  | out_for_delivery
  | delivered
  | completed
  | cancelled
  | rejected
deriving DecidableEq, Repr, Inhabited

/-- Dish document: the fields of DishSchema that the order engine reads
or writes (src/models: DishSchema). -/
structure Dish where
  id : Nat
  restaurantId : Nat
  name : String
  price : Rat
  isAvailable : Bool
  stockQuantity : Nat
  lowStockThreshold : Nat
  isLowStock : Bool
  isOutOfStock : Bool
deriving DecidableEq, Repr, Inhabited

/-- DishSchema.methods.checkStockStatus: recompute the derived stock
flags from the stored quantity. -/
def Dish.checkStockStatus (d : Dish) : Dish :=
  { d with
    isLowStock := decide (d.stockQuantity ≤ d.lowStockThreshold)
    isOutOfStock := decide (d.stockQuantity = 0) }

/-- DishSchema.methods.updateStock: clamp-at-zero stock adjustment,
this.stockQuantity = Math.max(0, this.stockQuantity + quantity), then
checkStockStatus. -/
def Dish.updateStock (d : Dish) (quantity : Int) : Dish :=
  Dish.checkStockStatus
    { d with stockQuantity := (max 0 ((d.stockQuantity : Int) + quantity)).toNat }

/-- Table document: the fields of TableSchema the order engine touches. -/
structure Table where
  id : Nat
  restaurantId : Nat
  status : TableStatus
  currentOrder : Option Nat
deriving DecidableEq, Repr, Inhabited

/-- TableSchema.methods.occupy: succeeds only from available or
reserved; returns the (possibly unchanged) table and the boolean result
the JS method returns. -/
def Table.occupy (t : Table) (orderId : Nat) : Table × Bool :=
  if t.status = TableStatus.available ∨ t.status = TableStatus.reserved then
    ({ t with status := TableStatus.occupied, currentOrder := some orderId }, true)
  else
    (t, false)

/-- TableSchema.methods.free: unconditionally reset to available and
clear the current order reference. -/
def Table.free (t : Table) : Table :=
  { t with status := TableStatus.available, currentOrder := none }

/-- One selected customization on an order line (OrderSchema items
customizations subdocument). -/
structure Customization where
  name : String
  option : String
  price : Rat
deriving DecidableEq, Repr, Inhabited

/-- One entry of OrderSchema.statusHistory. -/
structure StatusEntry where
  status : OrderStatus
  timestamp : Nat
  updatedBy : Nat
  notes : String
deriving DecidableEq, Repr, Inhabited

/-- One validated order line (OrderSchema items subdocument). -/
structure OrderItem where
  dishId : Nat
  name : String
  price : Rat
  quantity : Nat
  customizations : List Customization
  totalPrice : Rat
deriving DecidableEq, Repr, Inhabited

/-- Order document: the fields of OrderSchema the three handlers touch.
orderNumberSeq is the numeric sequence part of the generated order
number; day abstracts the calendar day of createdAt used by the
pre-save counting query. -/
structure Order where
  id : Nat
  orderNumberSeq : Nat
  restaurantId : Nat
  customerId : Nat
  tableId : Option Nat
  orderType : OrderType
  day : Nat
  items : List OrderItem
  subtotal : Rat
  taxAmount : Rat
  serviceCharge : Rat
  deliveryFee : Rat
  discountAmount : Rat
  totalAmount : Rat
  status : OrderStatus
  statusHistory : List StatusEntry
  cancellationReason : Option String
  cancelledBy : Option Nat
  cancelledAt : Option Nat
  actualDeliveryTime : Option Nat
deriving DecidableEq, Repr, Inhabited

/-- OrderSchema.methods.updateStatus: set the status and push one
history entry with the new status, actor, notes and a timestamp. -/
def Order.updateStatus (o : Order) (newStatus : OrderStatus) (updatedBy : Nat)
    (notes : String) (now : Nat) : Order :=
  { o with
    status := newStatus
    statusHistory := o.statusHistory ++ [⟨newStatus, now, updatedBy, notes⟩] }

/-- OrderSchema.methods.calculateTotals (defined for completeness;
the POST handler computes the same quantities inline). -/
def Order.calculateTotals (o : Order) : Order :=
  { o with
    subtotal := (o.items.map OrderItem.totalPrice).sum
    totalAmount := (o.items.map OrderItem.totalPrice).sum + o.taxAmount
      + o.serviceCharge + o.deliveryFee - o.discountAmount }

/-- The slice of RestaurantSchema.settings the POST handler reads. -/
structure RestaurantSettings where
  taxRate : Rat
  serviceCharge : Rat
  deliveryFee : Rat
deriving DecidableEq, Repr, Inhabited

structure Restaurant where
  id : Nat
  settings : RestaurantSettings
deriving DecidableEq, Repr, Inhabited

/-- One item of the request body of POST /api/orders. -/
structure ReqItem where
  dishId : Nat
  quantity : Nat
  customizations : List Customization
deriving DecidableEq, Repr, Inhabited

/-- Request body of POST /api/orders (the fields the handler uses). -/
structure CreateReq where
  restaurantId : Nat
  customerId : Nat
  orderType : OrderType
  items : List ReqItem
  tableId : Option Nat
deriving DecidableEq, Repr, Inhabited

/-- The persistent store the handlers read and write. -/
structure DBState where
  restaurants : List Restaurant
  dishes : List Dish
  tables : List Table
  orders : List Order
  nextOrderId : Nat
deriving DecidableEq, Repr, Inhabited

/-- Error responses the three handlers can produce. -/
inductive ApiError where
  | dishNotFound (dishId : Nat)
  | dishNotAvailable (name : String)
  | dishOutOfStock (name : String)
  | restaurantNotFound
  | orderNotFound
  | cannotCancel
deriving DecidableEq, Repr, Inhabited

def findDish (ds : List Dish) (i : Nat) : Option Dish :=
  ds.find? (fun d => d.id == i)

def findTable (ts : List Table) (i : Nat) : Option Table :=
  ts.find? (fun t => t.id == i)

def findOrder (os : List Order) (i : Nat) : Option Order :=
  os.find? (fun o => o.id == i)

def findRestaurant (rs : List Restaurant) (i : Nat) : Option Restaurant :=
  rs.find? (fun r => r.id == i)

/-- Persisting a fetched-and-mutated document: replace the stored
documents carrying its id. -/
def saveDish (ds : List Dish) (d : Dish) : List Dish :=
  ds.map (fun x => if x.id == d.id then d else x)

def saveTable (ts : List Table) (t : Table) : List Table :=
  ts.map (fun x => if x.id == t.id then t else x)

def saveOrder (os : List Order) (o : Order) : List Order :=
  os.map (fun x => if x.id == o.id then o else x)

/-- The validation loop of the POST /api/orders handler: resolve each
dish, reject missing or foreign dishes, unavailable dishes and dishes
flagged out of stock, price each line as dish.price * quantity plus the
plain sum of customization prices, and accumulate the subtotal. -/
def validateItems (ds : List Dish) (rid : Nat) :
    List ReqItem → Except ApiError (List OrderItem × Rat)
  | [] => Except.ok ([], 0)
  | it :: rest =>
    match findDish ds it.dishId with
    | none => Except.error (ApiError.dishNotFound it.dishId)
    | some dish =>
      if dish.restaurantId ≠ rid then
        Except.error (ApiError.dishNotFound it.dishId)
      else if dish.isAvailable = false then
        Except.error (ApiError.dishNotAvailable dish.name)
      else if dish.isOutOfStock = true then
        Except.error (ApiError.dishOutOfStock dish.name)
      else
        match validateItems ds rid rest with
        | Except.error e => Except.error e
        | Except.ok (items, sub) =>
          Except.ok (⟨it.dishId, dish.name, dish.price, it.quantity, it.customizations,
              dish.price * (it.quantity : Rat)
                + (it.customizations.map Customization.price).sum⟩ :: items,
            (dish.price * (it.quantity : Rat)
              + (it.customizations.map Customization.price).sum) + sub)

/-- One iteration of the per-item stock loops: fetch the line's dish
and, when present, save the result of updateStock applied to the signed
quantity. -/
def stockStep (sign : Int) (acc : List Dish) (it : OrderItem) : List Dish :=
  match findDish acc it.dishId with
  | some dish => saveDish acc (dish.updateStock (sign * (it.quantity : Int)))
  | none => acc

/-- The per-item stock loop shared by order creation (sign -1) and
cancellation (sign +1). -/
def applyStockChanges (ds : List Dish) (items : List OrderItem) (sign : Int) : List Dish :=
  items.foldl (stockStep sign) ds

/-- The cumulative effect of the stock loop on one dish: successive
updateStock applications, one per line naming the dish, in order. -/
def applyQuantities (d : Dish) (qs : List Nat) (sign : Int) : Dish :=
  qs.foldl (fun acc q => acc.updateStock (sign * (q : Int))) d

/-- The order document the POST handler persists (Order.create plus the
pre-save order-number hook, which numbers the order one past the count
of this restaurant's orders stored for the same day). -/
def newOrder (req : CreateReq) (day : Nat) (s : DBState) (items : List OrderItem)
    (subtotal : Rat) (r : Restaurant) : Order :=
  { id := s.nextOrderId
    orderNumberSeq :=
      (s.orders.filter (fun o => o.restaurantId == req.restaurantId && o.day == day)).length + 1
    restaurantId := req.restaurantId
    customerId := req.customerId
    tableId := req.tableId
    orderType := req.orderType
    day := day
    items := items
    subtotal := subtotal
    taxAmount := subtotal * r.settings.taxRate / 100
    serviceCharge := subtotal * r.settings.serviceCharge / 100
    deliveryFee := if req.orderType = OrderType.delivery then r.settings.deliveryFee else 0
    discountAmount := 0
    totalAmount := subtotal + subtotal * r.settings.taxRate / 100
      + subtotal * r.settings.serviceCharge / 100
      + (if req.orderType = OrderType.delivery then r.settings.deliveryFee else 0)
    status := OrderStatus.pending
    statusHistory := []
    cancellationReason := none
    cancelledBy := none
    cancelledAt := none
    actualDeliveryTime := none }

/-- Table side effect of the POST handler: when the order is dine-in
with a table id, fetch the table and save the result of occupy; the
handler ignores the boolean occupy returns. -/
def occupyTableStep (s : DBState) (req : CreateReq) (orderId : Nat) : DBState :=
  if req.orderType = OrderType.dine_in then
    match req.tableId with
    | some tid =>
      match findTable s.tables tid with
      | some t => { s with tables := saveTable s.tables (Table.occupy t orderId).1 }
      | none => s
    | none => s
  else s

/-- Success path of the POST handler after validation and the
restaurant fetch: persist the order, run the table step, then decrement
stock for every validated line. -/
def createOrderCore (req : CreateReq) (day : Nat) (s : DBState)
    (items : List OrderItem) (subtotal : Rat) (r : Restaurant) : Order × DBState :=
  let o := newOrder req day s items subtotal r
  let s1 : DBState := { s with orders := s.orders ++ [o], nextOrderId := s.nextOrderId + 1 }
  let s2 := occupyTableStep s1 req o.id
  (o, { s2 with dishes := applyStockChanges s2.dishes items (-1) })

/-- POST /api/orders handler. -/
def createOrder (req : CreateReq) (day : Nat) (s : DBState) :
    Except ApiError (Order × DBState) :=
  match validateItems s.dishes req.restaurantId req.items with
  | Except.error e => Except.error e
  | Except.ok (items, subtotal) =>
    match findRestaurant s.restaurants req.restaurantId with
    | none => Except.error ApiError.restaurantNotFound
    | some r => Except.ok (createOrderCore req day s items subtotal r)

/-- The order document the status handler saves: updateStatus, then
the special stamps for delivered/completed (actualDeliveryTime) and for
cancelled/rejected (cancelledBy, cancelledAt). -/
def statusUpdatedOrder (o : Order) (newStatus : OrderStatus) (actorId : Nat)
    (notes : String) (now : Nat) : Order :=
  let o1 := o.updateStatus newStatus actorId notes now
  let o2 :=
    if newStatus = OrderStatus.delivered ∨ newStatus = OrderStatus.completed then
      { o1 with actualDeliveryTime := some now }
    else o1
  if newStatus = OrderStatus.cancelled ∨ newStatus = OrderStatus.rejected then
    { o2 with cancelledBy := some actorId, cancelledAt := some now }
  else o2

/-- PUT /api/orders/:id/status handler: updateStatus, then the special
stamps, then save. It touches no dish and no table. -/
def setOrderStatus (orderId : Nat) (newStatus : OrderStatus) (actorId : Nat)
    (notes : String) (now : Nat) (s : DBState) : Except ApiError DBState :=
  match findOrder s.orders orderId with
  | none => Except.error ApiError.orderNotFound
  | some o =>
    Except.ok
      { s with
        orders := saveOrder s.orders (statusUpdatedOrder o newStatus actorId notes now) }

/-- Table side effect of the cancel handler: free the table of a
dine-in order unconditionally. -/
def freeTableStep (s : DBState) (o : Order) : DBState :=
  if o.orderType = OrderType.dine_in then
    match o.tableId with
    | some tid =>
      match findTable s.tables tid with
      | some t => { s with tables := saveTable s.tables (Table.free t) }
      | none => s
    | none => s
  else s

/-- The order document the cancel handler saves: updateStatus to
cancelled, then the cancellation stamps. -/
def cancelledOrder (o : Order) (actorId : Nat) (reason : String) (now : Nat) : Order :=
  { o.updateStatus OrderStatus.cancelled actorId reason now with
    cancellationReason := some reason
    cancelledBy := some actorId
    cancelledAt := some now }

/-- Success path of the cancel handler: record the cancellation on the
order and save it, add each line's quantity back onto its dish, then
free the table of a dine-in order. -/
def cancelOrderCore (o : Order) (actorId : Nat) (reason : String) (now : Nat)
    (s : DBState) : DBState :=
  let s1 : DBState := { s with orders := saveOrder s.orders (cancelledOrder o actorId reason now) }
  let s2 : DBState := { s1 with dishes := applyStockChanges s1.dishes o.items 1 }
  freeTableStep s2 o

/-- PUT /api/orders/:id/cancel handler: refuse when the order is
already delivered, completed, cancelled or rejected, otherwise run the
success path. -/
def cancelOrder (orderId : Nat) (actorId : Nat) (reason : String) (now : Nat)
    (s : DBState) : Except ApiError DBState :=
  match findOrder s.orders orderId with
  | none => Except.error ApiError.orderNotFound
  | some o =>
    if o.status ∈ [OrderStatus.delivered, OrderStatus.completed,
        OrderStatus.cancelled, OrderStatus.rejected] then
      Except.error ApiError.cannotCancel
    else
      Except.ok (cancelOrderCore o actorId reason now s)

/-- Orders stored for one restaurant on one calendar day, in insertion
order: the population counted by the pre-save order-number hook. -/
def ordersOfDay (s : DBState) (r d : Nat) : List Order :=
  s.orders.filter (fun o => o.restaurantId == r && o.day == d)

/-- Order-number invariant: for every restaurant and day, the stored
sequence numbers are exactly 1, 2, ..., count in insertion order. -/
def SeqInv (s : DBState) : Prop :=
  ∀ r d, (ordersOfDay s r d).map Order.orderNumberSeq
    = List.range' 1 (ordersOfDay s r d).length

/-! Concrete inputs used to instantiate the theorems below. -/

def exSettings : RestaurantSettings := ⟨0, 0, 0⟩

def exRestaurant : Restaurant := ⟨0, exSettings⟩

def exDish : Dish := ⟨1, 0, "Burger", 5, true, 10, 2, false, false⟩

def ex1Table : Table := ⟨5, 0, TableStatus.occupied, some 77⟩

def ex1State : DBState := ⟨[exRestaurant], [exDish], [ex1Table], [], 0⟩

def ex1Req : CreateReq := ⟨0, 9, OrderType.dine_in, [⟨1, 1, []⟩], some 5⟩

def ex1Res : Order × DBState := (createOrder ex1Req 0 ex1State).toOption.getD default

def ex2Settings : RestaurantSettings := ⟨10, 5, 7⟩

def ex2Restaurant : Restaurant := ⟨0, ex2Settings⟩

def ex2State : DBState := ⟨[ex2Restaurant], [exDish], [], [], 0⟩

def ex2Req : CreateReq :=
  ⟨0, 9, OrderType.delivery, [⟨1, 2, [⟨"size", "large", (3 : Rat)/2⟩]⟩], none⟩

def ex2Res : Order × DBState := (createOrder ex2Req 0 ex2State).toOption.getD default

def ex3State : DBState := ⟨[exRestaurant], [exDish], [], [], 0⟩

def ex3Req : CreateReq :=
  ⟨0, 9, OrderType.takeout, [⟨1, 4, []⟩, ⟨1, 3, []⟩], none⟩

def ex3Res : Order × DBState := (createOrder ex3Req 0 ex3State).toOption.getD default

def ex3S2 : DBState :=
  (cancelOrder ex3Res.1.id 9 "changed mind" 1 ex3Res.2).toOption.getD default

def ex4Order : Order :=
  { id := 3, orderNumberSeq := 1, restaurantId := 0, customerId := 9, tableId := none
    orderType := OrderType.takeout, day := 0, items := [], subtotal := 0, taxAmount := 0
    serviceCharge := 0, deliveryFee := 0, discountAmount := 0, totalAmount := 0
    status := OrderStatus.delivered, statusHistory := [], cancellationReason := none
    cancelledBy := none, cancelledAt := none, actualDeliveryTime := none }

def ex4State : DBState := ⟨[], [], [], [ex4Order], 99⟩

def ex5Table : Table := ⟨5, 0, TableStatus.occupied, some 3⟩

def ex5Item : OrderItem := ⟨1, "Burger", 5, 2, [], 10⟩

def ex5Order : Order :=
  { ex4Order with
    status := OrderStatus.pending
    orderType := OrderType.dine_in
    tableId := some 5
    items := [ex5Item] }

def ex5State : DBState := ⟨[], [exDish], [ex5Table], [ex5Order], 99⟩

def ex5S2 : DBState := (cancelOrder 3 7 "why" 4 ex5State).toOption.getD default

def ex6Order : Order :=
  { ex4Order with
    id := 0
    status := OrderStatus.pending
    statusHistory := [⟨OrderStatus.pending, 0, 9, ""⟩] }

def ex6State : DBState := ⟨[], [], [], [ex6Order], 50⟩

def ex6S2 : DBState :=
  (setOrderStatus 0 OrderStatus.confirmed 7 "ok" 5 ex6State).toOption.getD default

def ex7Settings : RestaurantSettings := ⟨(17 : Rat)/2, 10, 0⟩

def ex7Restaurant : Restaurant := ⟨0, ex7Settings⟩

def ex7Dish : Dish := ⟨1, 0, "Pasta", (1299 : Rat)/100, true, 50, 5, false, false⟩

def ex7Req : CreateReq :=
  ⟨0, 9, OrderType.dine_in, [⟨1, 2, [⟨"extra", "cheese", (3 : Rat)/2⟩]⟩], none⟩

def ex7State : DBState := ⟨[ex7Restaurant], [ex7Dish], [], [], 0⟩

def ex7Order : Order := ((createOrder ex7Req 0 ex7State).toOption.getD default).1

def ex8State : DBState := ⟨[exRestaurant], [exDish], [], [], 0⟩

def ex8Req : CreateReq := ⟨0, 9, OrderType.takeout, [⟨1, 1, []⟩], none⟩

def ex8Res : Order × DBState := (createOrder ex8Req 0 ex8State).toOption.getD default

def ex10Order : Order := { ex4Order with id := 0, status := OrderStatus.pending }

def ex10Table : Table := ⟨5, 0, TableStatus.available, none⟩

def ex10State : DBState := ⟨[], [exDish], [ex10Table], [ex10Order], 50⟩

def ex10S2 : DBState :=
  (setOrderStatus 0 OrderStatus.rejected 7 "no" 5 ex10State).toOption.getD default

/-! Helper lemmas. -/

theorem find?_save_eq {α : Type} (idf : α → Nat) {i : Nat} {d : α} (hd : idf d = i) :
    ∀ {ds : List α} {d0 : α}, ds.find? (fun x => idf x == i) = some d0 →
      (ds.map (fun x => if idf x == idf d then d else x)).find? (fun x => idf x == i)
        = some d := by
  intro ds
  induction ds with
  | nil => intro d0 h; simp at h
  | cons x xs ih =>
    intro d0 h
    by_cases hx : idf x = i
    · simp [List.find?, hx, hd]
    · have hb : (idf x == i) = false := by simp [hx]
      have hbd : (idf x == idf d) = false := by
        rw [hd]
        simp [hx]
      have hfind : xs.find? (fun y => idf y == i) = some d0 := by
        simpa [List.find?, hb] using h
      simpa [List.find?, hb, hbd] using ih hfind

theorem find?_save_ne {α : Type} (idf : α → Nat) {j : Nat} {d : α} (hd : idf d ≠ j) :
    ∀ (ds : List α),
      (ds.map (fun x => if idf x == idf d then d else x)).find? (fun x => idf x == j)
        = ds.find? (fun x => idf x == j) := by
  intro ds
  induction ds with
  | nil => rfl
  | cons x xs ih =>
    by_cases hx : idf x = idf d
    · have h1 : (idf x == idf d) = true := by simp [hx]
      have hbd : (idf d == j) = false := by simp [hd]
      have hbx : (idf x == j) = false := by
        rw [hx]
        simp [hd]
      simpa [List.find?, h1, hbd, hbx] using ih
    · have h1 : (idf x == idf d) = false := by simp [hx]
      by_cases hxj : idf x = j
      · have hbx : (idf x == j) = true := by simp [hxj]
        simp [List.find?, h1, hbx]
      · have hbx : (idf x == j) = false := by simp [hxj]
        simpa [List.find?, h1, hbx] using ih

theorem findDish_id {ds : List Dish} {i : Nat} {d : Dish} (h : findDish ds i = some d) :
    d.id = i := by
  have := List.find?_some h
  simpa using this

theorem findTable_id {ts : List Table} {i : Nat} {t : Table} (h : findTable ts i = some t) :
    t.id = i := by
  have := List.find?_some h
  simpa using this

theorem findOrder_id {os : List Order} {i : Nat} {o : Order} (h : findOrder os i = some o) :
    o.id = i := by
  have := List.find?_some h
  simpa using this

theorem findDish_saveDish_eq {ds : List Dish} {i : Nat} {d0 d : Dish}
    (h0 : findDish ds i = some d0) (hd : d.id = i) :
    findDish (saveDish ds d) i = some d :=
  find?_save_eq Dish.id hd h0

theorem findDish_saveDish_ne {ds : List Dish} {j : Nat} {d : Dish} (hd : d.id ≠ j) :
    findDish (saveDish ds d) j = findDish ds j :=
  find?_save_ne Dish.id hd ds

theorem findTable_saveTable_eq {ts : List Table} {i : Nat} {t0 t : Table}
    (h0 : findTable ts i = some t0) (ht : t.id = i) :
    findTable (saveTable ts t) i = some t :=
  find?_save_eq Table.id ht h0

theorem findOrder_saveOrder_eq {os : List Order} {i : Nat} {o0 o : Order}
    (h0 : findOrder os i = some o0) (ho : o.id = i) :
    findOrder (saveOrder os o) i = some o :=
  find?_save_eq Order.id ho h0

theorem findOrder_append_new {os : List Order} {o : Order}
    (hfresh : ∀ x ∈ os, x.id ≠ o.id) :
    findOrder (os ++ [o]) o.id = some o := by
  unfold findOrder
  rw [List.find?_append]
  have h1 : os.find? (fun x => x.id == o.id) = none :=
    List.find?_eq_none.mpr (fun x hx => by simpa using hfresh x hx)
  rw [h1]
  simp [List.find?]

theorem occupyTableStep_orders (s : DBState) (req : CreateReq) (oid : Nat) :
    (occupyTableStep s req oid).orders = s.orders := by
  unfold occupyTableStep
  split
  · split
    · split <;> rfl
    · rfl
  · rfl

theorem occupyTableStep_dishes (s : DBState) (req : CreateReq) (oid : Nat) :
    (occupyTableStep s req oid).dishes = s.dishes := by
  unfold occupyTableStep
  split
  · split
    · split <;> rfl
    · rfl
  · rfl

theorem freeTableStep_orders (s : DBState) (o : Order) :
    (freeTableStep s o).orders = s.orders := by
  unfold freeTableStep
  split
  · split
    · split <;> rfl
    · rfl
  · rfl

theorem freeTableStep_dishes (s : DBState) (o : Order) :
    (freeTableStep s o).dishes = s.dishes := by
  unfold freeTableStep
  split
  · split
    · split <;> rfl
    · rfl
  · rfl

theorem freeTableStep_tables_found {s : DBState} {o : Order} {tid : Nat} {t : Table}
    (hdi : o.orderType = OrderType.dine_in) (htid : o.tableId = some tid)
    (ht : findTable s.tables tid = some t) :
    (freeTableStep s o).tables = saveTable s.tables (Table.free t) := by
  simp [freeTableStep, hdi, htid, ht]

theorem createOrderCore_fst (req : CreateReq) (day : Nat) (s : DBState)
    (items : List OrderItem) (subtotal : Rat) (r : Restaurant) :
    (createOrderCore req day s items subtotal r).1 = newOrder req day s items subtotal r :=
  rfl

theorem createOrderCore_orders (req : CreateReq) (day : Nat) (s : DBState)
    (items : List OrderItem) (subtotal : Rat) (r : Restaurant) :
    (createOrderCore req day s items subtotal r).2.orders
      = s.orders ++ [newOrder req day s items subtotal r] := by
  have h : (createOrderCore req day s items subtotal r).2.orders
      = (occupyTableStep
          { s with
            orders := s.orders ++ [newOrder req day s items subtotal r]
            nextOrderId := s.nextOrderId + 1 }
          req (newOrder req day s items subtotal r).id).orders := rfl
  rw [h, occupyTableStep_orders]

theorem createOrderCore_dishes (req : CreateReq) (day : Nat) (s : DBState)
    (items : List OrderItem) (subtotal : Rat) (r : Restaurant) :
    (createOrderCore req day s items subtotal r).2.dishes
      = applyStockChanges s.dishes items (-1) := by
  have h : (createOrderCore req day s items subtotal r).2.dishes
      = applyStockChanges
          (occupyTableStep
            { s with
              orders := s.orders ++ [newOrder req day s items subtotal r]
              nextOrderId := s.nextOrderId + 1 }
            req (newOrder req day s items subtotal r).id).dishes
          items (-1) := rfl
  rw [h, occupyTableStep_dishes]

theorem createOrderCore_tables (req : CreateReq) (day : Nat) (s : DBState)
    (items : List OrderItem) (subtotal : Rat) (r : Restaurant) :
    (createOrderCore req day s items subtotal r).2.tables
      = (occupyTableStep
          { s with
            orders := s.orders ++ [newOrder req day s items subtotal r]
            nextOrderId := s.nextOrderId + 1 }
          req (newOrder req day s items subtotal r).id).tables :=
  rfl

theorem cancelOrderCore_orders (o : Order) (actorId : Nat) (reason : String) (now : Nat)
    (s : DBState) :
    (cancelOrderCore o actorId reason now s).orders
      = saveOrder s.orders (cancelledOrder o actorId reason now) := by
  have h : (cancelOrderCore o actorId reason now s).orders
      = (freeTableStep
          { s with
            orders := saveOrder s.orders (cancelledOrder o actorId reason now)
            dishes := applyStockChanges s.dishes o.items 1 }
          o).orders := rfl
  rw [h, freeTableStep_orders]

theorem cancelOrderCore_dishes (o : Order) (actorId : Nat) (reason : String) (now : Nat)
    (s : DBState) :
    (cancelOrderCore o actorId reason now s).dishes
      = applyStockChanges s.dishes o.items 1 := by
  have h : (cancelOrderCore o actorId reason now s).dishes
      = (freeTableStep
          { s with
            orders := saveOrder s.orders (cancelledOrder o actorId reason now)
            dishes := applyStockChanges s.dishes o.items 1 }
          o).dishes := rfl
  rw [h, freeTableStep_dishes]

theorem updateStock_id (d : Dish) (q : Int) : (d.updateStock q).id = d.id := rfl

theorem stockStep_preserves {ds : List Dish} {j : Nat} (sign : Int) (it : OrderItem)
    (hne : it.dishId ≠ j) :
    findDish (stockStep sign ds it) j = findDish ds j := by
  unfold stockStep
  cases hfd : findDish ds it.dishId with
  | none => rfl
  | some dish =>
    have hid : (dish.updateStock (sign * (it.quantity : Int))).id ≠ j := by
      rw [updateStock_id, findDish_id hfd]
      exact hne
    exact findDish_saveDish_ne hid

theorem applyStockChanges_findDish :
    ∀ {items : List OrderItem} (ds : List Dish) (sign : Int) {j : Nat} {d : Dish},
      findDish ds j = some d →
      findDish (applyStockChanges ds items sign) j
        = some (applyQuantities d
            ((items.filter (fun x => x.dishId == j)).map OrderItem.quantity) sign) := by
  intro items
  induction items with
  | nil => intro ds sign j d hd; exact hd
  | cons h0 rest ih =>
    intro ds sign j d hd
    have hc : applyStockChanges ds (h0 :: rest) sign
        = applyStockChanges (stockStep sign ds h0) rest sign := rfl
    by_cases hh : h0.dishId = j
    · have hd0 : findDish ds h0.dishId = some d := by
        rw [hh]
        exact hd
      have hstep : findDish (stockStep sign ds h0) j
          = some (d.updateStock (sign * (h0.quantity : Int))) := by
        unfold stockStep
        rw [hd0]
        exact findDish_saveDish_eq hd (by rw [updateStock_id]; exact findDish_id hd)
      rw [hc, ih (stockStep sign ds h0) sign hstep,
        List.filter_cons_of_pos (by simpa using hh)]
      rfl
    · have hstep : findDish (stockStep sign ds h0) j = some d := by
        rw [stockStep_preserves sign h0 hh]
        exact hd
      rw [hc, ih (stockStep sign ds h0) sign hstep,
        List.filter_cons_of_neg (by simpa using hh)]

theorem updateStock_stockQuantity (d : Dish) (q : Int) :
    (d.updateStock q).stockQuantity = (max 0 ((d.stockQuantity : Int) + q)).toNat := rfl

theorem applyQuantities_stock_sub :
    ∀ (qs : List Nat) (d : Dish), qs.sum ≤ d.stockQuantity →
      (applyQuantities d qs (-1)).stockQuantity = d.stockQuantity - qs.sum := by
  intro qs
  induction qs with
  | nil => intro d _; rfl
  | cons q rest ih =>
    intro d h
    have hsum : (q :: rest).sum = q + rest.sum := rfl
    rw [hsum] at h
    have h2 : rest.sum ≤ (d.updateStock ((-1) * (q : Int))).stockQuantity := by
      rw [updateStock_stockQuantity]
      omega
    have hstep : applyQuantities d (q :: rest) (-1)
        = applyQuantities (d.updateStock ((-1) * (q : Int))) rest (-1) := rfl
    rw [hstep, ih _ h2, updateStock_stockQuantity, hsum]
    omega

theorem applyQuantities_stock_add :
    ∀ (qs : List Nat) (d : Dish),
      (applyQuantities d qs 1).stockQuantity = d.stockQuantity + qs.sum := by
  intro qs
  induction qs with
  | nil => intro d; rfl
  | cons q rest ih =>
    intro d
    have hstep : applyQuantities d (q :: rest) 1
        = applyQuantities (d.updateStock (1 * (q : Int))) rest 1 := rfl
    have hsum : (q :: rest).sum = q + rest.sum := rfl
    rw [hstep, ih, updateStock_stockQuantity, hsum]
    omega

theorem applyQuantities_threshold :
    ∀ (qs : List Nat) (d : Dish) (sign : Int),
      (applyQuantities d qs sign).lowStockThreshold = d.lowStockThreshold := by
  intro qs
  induction qs with
  | nil => intro d sign; rfl
  | cons q rest ih => intro d sign; exact ih (d.updateStock (sign * (q : Int))) sign

theorem applyQuantities_flags :
    ∀ (qs : List Nat) (d : Dish) (sign : Int), qs ≠ [] →
      (applyQuantities d qs sign).isLowStock
        = decide ((applyQuantities d qs sign).stockQuantity
            ≤ (applyQuantities d qs sign).lowStockThreshold) ∧
      (applyQuantities d qs sign).isOutOfStock
        = decide ((applyQuantities d qs sign).stockQuantity = 0) := by
  intro qs
  induction qs with
  | nil => intro d sign h; exact absurd rfl h
  | cons q rest ih =>
    intro d sign _
    cases rest with
    | nil => exact ⟨rfl, rfl⟩
    | cons q2 rest2 =>
      exact ih (d.updateStock (sign * (q : Int))) sign (by simp)

theorem validateItems_spec :
    ∀ {l : List ReqItem} {ds : List Dish} {rid : Nat} {items : List OrderItem} {sub : Rat},
      validateItems ds rid l = Except.ok (items, sub) →
      sub = (items.map OrderItem.totalPrice).sum ∧
      ∀ x ∈ items,
        x.totalPrice = x.price * (x.quantity : Rat)
          + (x.customizations.map Customization.price).sum := by
  intro l
  induction l with
  | nil =>
    intro ds rid items sub h
    unfold validateItems at h
    injection h with h2
    injection h2 with ha hb
    subst ha
    subst hb
    exact ⟨by simp, by simp⟩
  | cons it rest ih =>
    intro ds rid items sub h
    unfold validateItems at h
    split at h
    · simp at h
    · split_ifs at h with h1 h2 h3
      split at h
      · simp at h
      · rename_i items0 sub0 hrec
        injection h with h4
        injection h4 with hi hs
        subst hi
        subst hs
        obtain ⟨ihs, ihp⟩ := ih hrec
        constructor
        · simp [ihs]
        · intro x hx
          rcases List.mem_cons.mp hx with hx1 | hx2
          · subst hx1; rfl
          · exact ihp x hx2

theorem createOrder_ok {req : CreateReq} {day : Nat} {s : DBState} {o : Order} {s1 : DBState}
    (h : createOrder req day s = Except.ok (o, s1)) :
    ∃ items sub r,
      validateItems s.dishes req.restaurantId req.items = Except.ok (items, sub) ∧
      findRestaurant s.restaurants req.restaurantId = some r ∧
      o = newOrder req day s items sub r ∧
      s1 = (createOrderCore req day s items sub r).2 := by
  unfold createOrder at h
  cases hv : validateItems s.dishes req.restaurantId req.items with
  | error e => rw [hv] at h; simp at h
  | ok p =>
    obtain ⟨items, sub⟩ := p
    rw [hv] at h
    simp only at h
    cases hr : findRestaurant s.restaurants req.restaurantId with
    | none => rw [hr] at h; simp at h
    | some r =>
      rw [hr] at h
      simp only at h
      have h2 : createOrderCore req day s items sub r = (o, s1) := by
        exact Except.ok.injEq _ _ ▸ h
      exact ⟨items, sub, r, rfl, rfl, (congrArg Prod.fst h2).symm,
        (congrArg Prod.snd h2).symm⟩

theorem cancelOrder_ok {oid actorId : Nat} {reason : String} {now : Nat} {s : DBState}
    {s2 : DBState} {o : Order} (hfind : findOrder s.orders oid = some o)
    (h : cancelOrder oid actorId reason now s = Except.ok s2) :
    o.status ∉ [OrderStatus.delivered, OrderStatus.completed,
      OrderStatus.cancelled, OrderStatus.rejected] ∧
    s2 = cancelOrderCore o actorId reason now s := by
  unfold cancelOrder at h
  rw [hfind] at h
  simp only at h
  split_ifs at h with hterm
  injection h with h2
  exact ⟨hterm, h2.symm⟩

theorem setOrderStatus_ok {oid : Nat} {newStatus : OrderStatus} {actorId : Nat}
    {notes : String} {now : Nat} {s s2 : DBState} {o : Order}
    (hfind : findOrder s.orders oid = some o)
    (h : setOrderStatus oid newStatus actorId notes now s = Except.ok s2) :
    s2 = { s with
      orders := saveOrder s.orders (statusUpdatedOrder o newStatus actorId notes now) } := by
  unfold setOrderStatus at h
  rw [hfind] at h
  simp only at h
  injection h with h2
  exact h2.symm

theorem statusUpdatedOrder_parts (o : Order) (st : OrderStatus) (a now : Nat) (n : String) :
    (statusUpdatedOrder o st a n now).id = o.id ∧
    (statusUpdatedOrder o st a n now).status = st ∧
    (statusUpdatedOrder o st a n now).statusHistory
      = o.statusHistory ++ [⟨st, now, a, n⟩] := by
  refine ⟨?_, ?_, ?_⟩ <;> (simp only [statusUpdatedOrder]; split <;> split <;> rfl)

/-! Claim theorems. -/

/-- C9: for every dish and every integer delta, updateStock produces
the clamped quantity max(0, current + delta) (in particular the stored
quantity is never negative), and recomputes isLowStock and isOutOfStock
so that the flags agree with the stored quantity and threshold after
the operation. -/
theorem claim9_update_stock (d : Dish) (delta : Int) :
    ((d.updateStock delta).stockQuantity : Int) = max 0 ((d.stockQuantity : Int) + delta) ∧
    0 ≤ ((d.updateStock delta).stockQuantity : Int) ∧
    (d.updateStock delta).isLowStock
      = decide ((d.updateStock delta).stockQuantity
          ≤ (d.updateStock delta).lowStockThreshold) ∧
    (d.updateStock delta).isOutOfStock
      = decide ((d.updateStock delta).stockQuantity = 0) ∧
    (d.updateStock delta).lowStockThreshold = d.lowStockThreshold :=
  ⟨Int.toNat_of_nonneg (le_max_left 0 _), Int.natCast_nonneg _, rfl, rfl, rfl⟩

/-- C4: cancelOrder on an order whose status is delivered, completed,
cancelled or rejected fails with the cannot-cancel error (and, the
handler returning before any write, leaves the store unchanged). -/
theorem claim4_cancel_terminal_fails {s : DBState} {oid actorId : Nat} {reason : String}
    {now : Nat} {o : Order}
    (hfind : findOrder s.orders oid = some o)
    (hterm : o.status ∈ [OrderStatus.delivered, OrderStatus.completed,
      OrderStatus.cancelled, OrderStatus.rejected]) :
    cancelOrder oid actorId reason now s = Except.error ApiError.cannotCancel := by
  unfold cancelOrder
  rw [hfind]
  exact if_pos hterm

/-- C4 witness: a delivered order cannot be cancelled. -/
theorem claim4_witness :
    findOrder ex4State.orders 3 = some ex4Order ∧
    ex4Order.status ∈ [OrderStatus.delivered, OrderStatus.completed,
      OrderStatus.cancelled, OrderStatus.rejected] ∧
    cancelOrder 3 1 "late" 0 ex4State = Except.error ApiError.cannotCancel :=
  ⟨by decide, by decide,
    @claim4_cancel_terminal_fails ex4State 3 1 "late" 0 ex4Order (by decide) (by decide)⟩

/-- C7 counterexample: on the spec scenario (price 12.99, one +1.50
customization, quantity 2, tax 8.5%, service 10%, dine-in) the handler
stores the raw products of the percentage computation; the order it
creates does not carry the rounded amounts 2.34, 2.75 and 32.57 the
claim states. -/
theorem claim7_counterexample :
    (createOrder ex7Req 0 ex7State).toOption.isSome = true ∧
    ex7Order.subtotal = (2748 : Rat)/100 ∧
    ex7Order.taxAmount ≠ (234 : Rat)/100 ∧
    ex7Order.serviceCharge ≠ (275 : Rat)/100 ∧
    ex7Order.totalAmount ≠ (3257 : Rat)/100 := by
  have hsub : ex7Order.subtotal
      = ((1299 : Rat)/100 * ((2 : Nat) : Rat) + ((3 : Rat)/2 + 0)) + 0 := rfl
  have htax : ex7Order.taxAmount
      = (((1299 : Rat)/100 * ((2 : Nat) : Rat) + ((3 : Rat)/2 + 0)) + 0)
        * ((17 : Rat)/2) / 100 := rfl
  have hsvc : ex7Order.serviceCharge
      = (((1299 : Rat)/100 * ((2 : Nat) : Rat) + ((3 : Rat)/2 + 0)) + 0)
        * (10 : Rat) / 100 := rfl
  have htot : ex7Order.totalAmount
      = (((1299 : Rat)/100 * ((2 : Nat) : Rat) + ((3 : Rat)/2 + 0)) + 0)
        + (((1299 : Rat)/100 * ((2 : Nat) : Rat) + ((3 : Rat)/2 + 0)) + 0)
          * ((17 : Rat)/2) / 100
        + (((1299 : Rat)/100 * ((2 : Nat) : Rat) + ((3 : Rat)/2 + 0)) + 0)
          * (10 : Rat) / 100
        + 0 := rfl
  refine ⟨rfl, ?_, ?_, ?_, ?_⟩
  · rw [hsub]; norm_num
  · rw [htax]; norm_num
  · rw [hsvc]; norm_num
  · rw [htot]; norm_num

/-- C7 amended: on the scenario the handler produces item total 27.48
and subtotal 27.48 as claimed, but stores the unrounded amounts
taxAmount = 2.3358, serviceCharge = 2.748, deliveryFee = 0 and
totalAmount = 32.5638 (exact-rational semantics; no rounding to the
two-decimal currency precision happens anywhere in the handler). -/
theorem claim7_scenario_values :
    ex7Order.items.map OrderItem.totalPrice = [(2748 : Rat)/100] ∧
    ex7Order.subtotal = (2748 : Rat)/100 ∧
    ex7Order.taxAmount = (23358 : Rat)/10000 ∧
    ex7Order.serviceCharge = (2748 : Rat)/1000 ∧
    ex7Order.deliveryFee = 0 ∧
    ex7Order.discountAmount = 0 ∧
    ex7Order.totalAmount = (325638 : Rat)/10000 := by
  have hitem : ex7Order.items.map OrderItem.totalPrice
      = [(1299 : Rat)/100 * ((2 : Nat) : Rat) + ((3 : Rat)/2 + 0)] := rfl
  have hsub : ex7Order.subtotal
      = ((1299 : Rat)/100 * ((2 : Nat) : Rat) + ((3 : Rat)/2 + 0)) + 0 := rfl
  have htax : ex7Order.taxAmount
      = (((1299 : Rat)/100 * ((2 : Nat) : Rat) + ((3 : Rat)/2 + 0)) + 0)
        * ((17 : Rat)/2) / 100 := rfl
  have hsvc : ex7Order.serviceCharge
      = (((1299 : Rat)/100 * ((2 : Nat) : Rat) + ((3 : Rat)/2 + 0)) + 0)
        * (10 : Rat) / 100 := rfl
  have htot : ex7Order.totalAmount
      = (((1299 : Rat)/100 * ((2 : Nat) : Rat) + ((3 : Rat)/2 + 0)) + 0)
        + (((1299 : Rat)/100 * ((2 : Nat) : Rat) + ((3 : Rat)/2 + 0)) + 0)
          * ((17 : Rat)/2) / 100
        + (((1299 : Rat)/100 * ((2 : Nat) : Rat) + ((3 : Rat)/2 + 0)) + 0)
          * (10 : Rat) / 100
        + 0 := rfl
  refine ⟨?_, ?_, ?_, ?_, rfl, rfl, ?_⟩
  · rw [hitem]; norm_num
  · rw [hsub]; norm_num
  · rw [htax]; norm_num
  · rw [hsvc]; norm_num
  · rw [htot]; norm_num

/-- C1 counterexample: a dine-in createOrder against an occupied table
does not fail and does persist the order; the handler ignores the
boolean returned by occupy, so the response is a success and only the
table is left untouched. -/
theorem claim1_counterexample :
    (createOrder ex1Req 0 ex1State).toOption.isSome = true ∧
    findTable ex1Res.2.tables 5 = some ex1Table ∧
    ex1Res.2.orders.length = 1 := by
  decide

/-- C1 amended: for a successful dine-in createOrder naming a stored
table, the order is always persisted; when the table was occupied, the
occupy call fails without mutating the table (so the table keeps its
previous order reference), and when it was available or reserved it
transitions to occupied and the new order id is attached. Creation
never fails because of table state. -/
theorem claim1_table_occupancy {req : CreateReq} {day : Nat} {s : DBState} {o : Order}
    {s1 : DBState} {tid : Nat} {t : Table}
    (hok : createOrder req day s = Except.ok (o, s1))
    (hdi : req.orderType = OrderType.dine_in)
    (htid : req.tableId = some tid)
    (ht : findTable s.tables tid = some t)
    (hfresh : ∀ x ∈ s.orders, x.id ≠ s.nextOrderId) :
    findOrder s1.orders o.id = some o ∧
    (t.status = TableStatus.occupied → findTable s1.tables tid = some t) ∧
    ((t.status = TableStatus.available ∨ t.status = TableStatus.reserved) →
      findTable s1.tables tid
        = some { t with status := TableStatus.occupied, currentOrder := some o.id }) := by
  obtain ⟨items, sub, r, hv, hr, ho, hs1⟩ := createOrder_ok hok
  subst ho
  subst hs1
  refine ⟨?_, ?_, ?_⟩
  · rw [createOrderCore_orders]
    exact findOrder_append_new (fun x hx => hfresh x hx)
  · intro hocc
    rw [createOrderCore_tables]
    simp only [occupyTableStep, hdi, htid, ht, if_true, reduceIte]
    have hfst : (Table.occupy t (newOrder req day s items sub r).id).1 = t := by
      unfold Table.occupy
      rw [if_neg]
      rw [hocc]
      simp
    rw [hfst]
    exact findTable_saveTable_eq ht (findTable_id ht)
  · intro havail
    rw [createOrderCore_tables]
    simp only [occupyTableStep, hdi, htid, ht, if_true, reduceIte]
    have hfst : (Table.occupy t (newOrder req day s items sub r).id).1
        = { t with
            status := TableStatus.occupied
            currentOrder := some (newOrder req day s items sub r).id } := by
      unfold Table.occupy
      rw [if_pos havail]
    rw [hfst]
    exact findTable_saveTable_eq ht (@findTable_id s.tables tid t ht)

/-- C1 witness: instantiating the amended theorem at the occupied-table
state: the order is persisted and the occupied table is unchanged. -/
theorem claim1_witness :
    createOrder ex1Req 0 ex1State = Except.ok ex1Res ∧
    findOrder ex1Res.2.orders ex1Res.1.id = some ex1Res.1 ∧
    findTable ex1Res.2.tables 5 = some ex1Table := by
  have hok : createOrder ex1Req 0 ex1State = Except.ok (ex1Res.1, ex1Res.2) := rfl
  have ht : findTable ex1State.tables 5 = some ex1Table := rfl
  have h := claim1_table_occupancy hok rfl rfl ht (by decide)
  exact ⟨rfl, h.1, h.2.1 rfl⟩

/-- C2: every order successfully created by the POST handler carries
line totals dish.price * quantity plus the plain sum of customization
prices (not multiplied by quantity), a subtotal equal to the sum of the
line totals, taxAmount = subtotal * taxRate / 100, serviceCharge =
subtotal * serviceChargeRate / 100, the restaurant's flat delivery fee
exactly for delivery orders and 0 otherwise, discountAmount 0, and
totalAmount = subtotal + taxAmount + serviceCharge + deliveryFee -
discountAmount. -/
theorem claim2_pricing_totals {req : CreateReq} {day : Nat} {s : DBState} {o : Order}
    {s1 : DBState} {r : Restaurant}
    (hok : createOrder req day s = Except.ok (o, s1))
    (hr : findRestaurant s.restaurants req.restaurantId = some r) :
    (∀ x ∈ o.items, x.totalPrice = x.price * (x.quantity : Rat)
      + (x.customizations.map Customization.price).sum) ∧
    o.subtotal = (o.items.map OrderItem.totalPrice).sum ∧
    o.taxAmount = o.subtotal * r.settings.taxRate / 100 ∧
    o.serviceCharge = o.subtotal * r.settings.serviceCharge / 100 ∧
    o.deliveryFee
      = (if req.orderType = OrderType.delivery then r.settings.deliveryFee else 0) ∧
    o.discountAmount = 0 ∧
    o.totalAmount = o.subtotal + o.taxAmount + o.serviceCharge + o.deliveryFee
      - o.discountAmount := by
  obtain ⟨items, sub, r2, hv, hr2, ho, hs1⟩ := createOrder_ok hok
  rw [hr] at hr2
  injection hr2 with hrr
  subst hrr
  subst ho
  obtain ⟨hsub, hitems⟩ := validateItems_spec hv
  refine ⟨fun x hx => hitems x hx, hsub, rfl, rfl, rfl, rfl, ?_⟩
  show sub + sub * r.settings.taxRate / 100 + sub * r.settings.serviceCharge / 100
      + (if req.orderType = OrderType.delivery then r.settings.deliveryFee else 0)
    = sub + sub * r.settings.taxRate / 100 + sub * r.settings.serviceCharge / 100
      + (if req.orderType = OrderType.delivery then r.settings.deliveryFee else 0) - 0
  rw [sub_zero]

/-- C2 witness: instantiating the pricing theorem at a delivery order
with one customized line. -/
theorem claim2_witness :
    createOrder ex2Req 0 ex2State = Except.ok (ex2Res.1, ex2Res.2) ∧
    findRestaurant ex2State.restaurants 0 = some ex2Restaurant ∧
    ex2Res.1.discountAmount = 0 ∧
    ex2Res.1.totalAmount = ex2Res.1.subtotal + ex2Res.1.taxAmount
      + ex2Res.1.serviceCharge + ex2Res.1.deliveryFee - ex2Res.1.discountAmount := by
  have hok : createOrder ex2Req 0 ex2State = Except.ok (ex2Res.1, ex2Res.2) := rfl
  have hr : findRestaurant ex2State.restaurants 0 = some ex2Restaurant := rfl
  have h := claim2_pricing_totals hok hr
  exact ⟨hok, hr, h.2.2.2.2.2.1, h.2.2.2.2.2.2⟩

/-- C10: the status route with newStatus cancelled or rejected stamps
cancelledBy and cancelledAt and appends exactly one history entry, but
leaves every dish and every table in the store untouched; stock
restoration and table freeing happen only in the cancel route. -/
theorem claim10_status_frame {s s2 : DBState} {oid actorId : Nat}
    {newStatus : OrderStatus} {notes : String} {now : Nat} {o : Order}
    (hfind : findOrder s.orders oid = some o)
    (hst : newStatus = OrderStatus.cancelled ∨ newStatus = OrderStatus.rejected)
    (hok : setOrderStatus oid newStatus actorId notes now s = Except.ok s2) :
    s2.dishes = s.dishes ∧ s2.tables = s.tables ∧
    ∃ o2, findOrder s2.orders oid = some o2 ∧
      o2.status = newStatus ∧
      o2.cancelledBy = some actorId ∧
      o2.cancelledAt = some now ∧
      o2.statusHistory = o.statusHistory ++ [⟨newStatus, now, actorId, notes⟩] := by
  have hs2 := setOrderStatus_ok hfind hok
  subst hs2
  obtain ⟨hid, hstat, hhist⟩ := statusUpdatedOrder_parts o newStatus actorId now notes
  refine ⟨rfl, rfl, statusUpdatedOrder o newStatus actorId notes now,
    findOrder_saveOrder_eq hfind (by rw [hid, findOrder_id hfind]), hstat, ?_, ?_, hhist⟩
  · simp only [statusUpdatedOrder]
    rw [if_pos hst]
  · simp only [statusUpdatedOrder]
    rw [if_pos hst]

/-- C10 witness: rejecting a pending order stamps the cancellation
fields and leaves dishes and tables unchanged. -/
theorem claim10_witness :
    findOrder ex10State.orders 0 = some ex10Order ∧
    setOrderStatus 0 OrderStatus.rejected 7 "no" 5 ex10State = Except.ok ex10S2 ∧
    ex10S2.dishes = ex10State.dishes ∧
    ex10S2.tables = ex10State.tables := by
  have hfind : findOrder ex10State.orders 0 = some ex10Order := rfl
  have hok : setOrderStatus 0 OrderStatus.rejected 7 "no" 5 ex10State
      = Except.ok ex10S2 := rfl
  have h := claim10_status_frame hfind (Or.inr rfl) hok
  exact ⟨hfind, hok, h.1, h.2.1⟩

/-- C6: in both the status route and the cancel route, a successful
call appends exactly one entry to the found order's status history,
carrying the new status, the acting user, the note and the timestamp;
the previous history entries are preserved unchanged, in order, as the
prefix. -/
theorem claim6_history_append {s : DBState} {oid : Nat} {o : Order}
    (hfind : findOrder s.orders oid = some o) :
    (∀ st actorId notes now s2,
      setOrderStatus oid st actorId notes now s = Except.ok s2 →
      ∃ o2, findOrder s2.orders oid = some o2 ∧
        o2.statusHistory = o.statusHistory ++ [⟨st, now, actorId, notes⟩]) ∧
    (∀ actorId reason now s3,
      cancelOrder oid actorId reason now s = Except.ok s3 →
      ∃ o3, findOrder s3.orders oid = some o3 ∧
        o3.statusHistory = o.statusHistory
          ++ [⟨OrderStatus.cancelled, now, actorId, reason⟩]) := by
  constructor
  · intro st actorId notes now s2 hok
    have hs2 := setOrderStatus_ok hfind hok
    subst hs2
    obtain ⟨hid, hstat, hhist⟩ := statusUpdatedOrder_parts o st actorId now notes
    exact ⟨statusUpdatedOrder o st actorId notes now,
      findOrder_saveOrder_eq hfind (by rw [hid, findOrder_id hfind]), hhist⟩
  · intro actorId reason now s3 hok
    obtain ⟨hterm, hs3⟩ := cancelOrder_ok hfind hok
    subst hs3
    refine ⟨cancelledOrder o actorId reason now, ?_, rfl⟩
    rw [cancelOrderCore_orders]
    exact findOrder_saveOrder_eq hfind
      (by rw [show (cancelledOrder o actorId reason now).id = o.id from rfl,
        findOrder_id hfind])

/-- C6 witness: confirming an order with a one-entry history appends
exactly the new entry. -/
theorem claim6_witness :
    findOrder ex6State.orders 0 = some ex6Order ∧
    setOrderStatus 0 OrderStatus.confirmed 7 "ok" 5 ex6State = Except.ok ex6S2 ∧
    (∃ o2, findOrder ex6S2.orders 0 = some o2 ∧
      o2.statusHistory = ex6Order.statusHistory
        ++ [⟨OrderStatus.confirmed, 5, 7, "ok"⟩]) := by
  have hfind : findOrder ex6State.orders 0 = some ex6Order := rfl
  have hok : setOrderStatus 0 OrderStatus.confirmed 7 "ok" 5 ex6State
      = Except.ok ex6S2 := rfl
  exact ⟨hfind, hok, (claim6_history_append hfind).1 OrderStatus.confirmed 7 "ok" 5 ex6S2 hok⟩

/-- C5: a successful cancelOrder on a non-terminal order sets the
status to cancelled through updateStatus, records the caller's reason
verbatim both in cancellationReason and in the note of the single
appended history entry, adds every line item's quantity back onto its
dish's stock (cumulating over all lines naming the dish) and recomputes
the stock flags of every restocked dish, and, for a dine-in order with
a stored table, frees the table to available and clears its order
reference with no condition on the table's prior status. -/
theorem claim5_cancel_success_effects {s s2 : DBState} {oid actorId : Nat}
    {reason : String} {now : Nat} {o : Order}
    (hfind : findOrder s.orders oid = some o)
    (hok : cancelOrder oid actorId reason now s = Except.ok s2) :
    (∃ oc, findOrder s2.orders oid = some oc ∧
      oc.status = OrderStatus.cancelled ∧
      oc.cancellationReason = some reason ∧
      oc.cancelledBy = some actorId ∧
      oc.cancelledAt = some now ∧
      oc.statusHistory = o.statusHistory
        ++ [⟨OrderStatus.cancelled, now, actorId, reason⟩]) ∧
    (∀ j d, findDish s.dishes j = some d →
      ∃ d2, findDish s2.dishes j = some d2 ∧
        d2.stockQuantity = d.stockQuantity
          + ((o.items.filter (fun x => x.dishId == j)).map OrderItem.quantity).sum ∧
        d2.lowStockThreshold = d.lowStockThreshold ∧
        (o.items.filter (fun x => x.dishId == j) ≠ [] →
          d2.isLowStock = decide (d2.stockQuantity ≤ d2.lowStockThreshold) ∧
          d2.isOutOfStock = decide (d2.stockQuantity = 0))) ∧
    (o.orderType = OrderType.dine_in → ∀ tid, o.tableId = some tid →
      ∀ t, findTable s.tables tid = some t →
        findTable s2.tables tid = some (Table.free t)) := by
  obtain ⟨hterm, hs2⟩ := cancelOrder_ok hfind hok
  subst hs2
  refine ⟨⟨cancelledOrder o actorId reason now, ?_, rfl, rfl, rfl, rfl, rfl⟩, ?_, ?_⟩
  · rw [cancelOrderCore_orders]
    exact findOrder_saveOrder_eq hfind
      (by rw [show (cancelledOrder o actorId reason now).id = o.id from rfl,
        findOrder_id hfind])
  · intro j d hd
    refine ⟨applyQuantities d
      ((o.items.filter (fun x => x.dishId == j)).map OrderItem.quantity) 1,
      ?_, ?_, ?_, ?_⟩
    · rw [cancelOrderCore_dishes]
      exact applyStockChanges_findDish s.dishes 1 hd
    · exact applyQuantities_stock_add _ d
    · exact applyQuantities_threshold _ d 1
    · intro hne
      refine applyQuantities_flags _ d 1 ?_
      intro hqnil
      exact hne (by simpa using hqnil)
  · intro hdi tid htid t ht
    have ht2 : findTable
        ({ s with
           orders := saveOrder s.orders (cancelledOrder o actorId reason now)
           dishes := applyStockChanges s.dishes o.items 1 } : DBState).tables tid
        = some t := ht
    have htab : (cancelOrderCore o actorId reason now s).tables
        = (freeTableStep
            { s with
              orders := saveOrder s.orders (cancelledOrder o actorId reason now)
              dishes := applyStockChanges s.dishes o.items 1 }
            o).tables := rfl
    rw [htab, freeTableStep_tables_found hdi htid ht2]
    exact findTable_saveTable_eq ht (@findTable_id s.tables tid t ht)

/-- C5 witness: cancelling a pending dine-in order adds the line
quantity back onto the dish and frees the occupied table. -/
theorem claim5_witness :
    findOrder ex5State.orders 3 = some ex5Order ∧
    cancelOrder 3 7 "why" 4 ex5State = Except.ok ex5S2 ∧
    (∃ d2, findDish ex5S2.dishes 1 = some d2 ∧
      d2.stockQuantity = exDish.stockQuantity
        + ((ex5Order.items.filter (fun x => x.dishId == 1)).map OrderItem.quantity).sum) ∧
    findTable ex5S2.tables 5 = some (Table.free ex5Table) := by
  have hfind : findOrder ex5State.orders 3 = some ex5Order := rfl
  have hok : cancelOrder 3 7 "why" 4 ex5State = Except.ok ex5S2 := rfl
  have h := claim5_cancel_success_effects hfind hok
  obtain ⟨d2, hfd, hst, hthr, hfl⟩ := h.2.1 1 exDish rfl
  exact ⟨hfind, hok, ⟨d2, hfd, hst⟩, h.2.2 rfl 5 rfl ex5Table rfl⟩

/-- C3: for an order created by createOrder and then cancelled through
cancelOrder with no intervening stock mutation, every dish whose total
ordered quantity (summed over all lines referencing it) does not exceed
its stock — so the clamp at zero is not hit, the claim's only
exception — is first decremented by exactly that ordered quantity and
then restored to its pre-order stock value by the cancellation. -/
theorem claim3_stock_roundtrip {req : CreateReq} {day : Nat} {s : DBState} {o : Order}
    {s1 s2 : DBState} {actorId : Nat} {reason : String} {now : Nat}
    {j : Nat} {d : Dish}
    (hok : createOrder req day s = Except.ok (o, s1))
    (hfresh : ∀ x ∈ s.orders, x.id ≠ s.nextOrderId)
    (hcan : cancelOrder o.id actorId reason now s1 = Except.ok s2)
    (hd : findDish s.dishes j = some d)
    (hq : ((o.items.filter (fun x => x.dishId == j)).map OrderItem.quantity).sum
        ≤ d.stockQuantity) :
    (∃ d1, findDish s1.dishes j = some d1 ∧
      d1.stockQuantity = d.stockQuantity
        - ((o.items.filter (fun x => x.dishId == j)).map OrderItem.quantity).sum) ∧
    (∃ d2, findDish s2.dishes j = some d2 ∧
      d2.stockQuantity = d.stockQuantity) := by
  obtain ⟨items, sub, r, hv, hr, ho, hs1⟩ := createOrder_ok hok
  subst ho
  subst hs1
  have hq2 : ((items.filter (fun x => x.dishId == j)).map OrderItem.quantity).sum
      ≤ d.stockQuantity := hq
  have h1 : findDish (createOrderCore req day s items sub r).2.dishes j
      = some (applyQuantities d
          ((items.filter (fun x => x.dishId == j)).map OrderItem.quantity) (-1)) := by
    rw [createOrderCore_dishes]
    exact applyStockChanges_findDish s.dishes (-1) hd
  refine ⟨⟨applyQuantities d
    ((items.filter (fun x => x.dishId == j)).map OrderItem.quantity) (-1),
    h1, applyQuantities_stock_sub _ d hq2⟩, ?_⟩
  have hfindo : findOrder (createOrderCore req day s items sub r).2.orders
      (newOrder req day s items sub r).id = some (newOrder req day s items sub r) := by
    rw [createOrderCore_orders]
    exact findOrder_append_new (fun x hx => hfresh x hx)
  obtain ⟨hterm, hs2⟩ := cancelOrder_ok hfindo hcan
  subst hs2
  have h2 : findDish (cancelOrderCore (newOrder req day s items sub r) actorId reason
        now (createOrderCore req day s items sub r).2).dishes j
      = some (applyQuantities
          (applyQuantities d
            ((items.filter (fun x => x.dishId == j)).map OrderItem.quantity) (-1))
          ((items.filter (fun x => x.dishId == j)).map OrderItem.quantity) 1) := by
    rw [cancelOrderCore_dishes]
    exact applyStockChanges_findDish (createOrderCore req day s items sub r).2.dishes 1 h1
  refine ⟨applyQuantities
    (applyQuantities d
      ((items.filter (fun x => x.dishId == j)).map OrderItem.quantity) (-1))
    ((items.filter (fun x => x.dishId == j)).map OrderItem.quantity) 1, h2, ?_⟩
  rw [applyQuantities_stock_add, applyQuantities_stock_sub _ d hq2]
  omega

/-- C3 witness: an order with two lines of the same dish (quantities 4
and 3) against stock 10 is decremented to 3, and cancellation restores
stock 10. -/
theorem claim3_witness :
    createOrder ex3Req 0 ex3State = Except.ok (ex3Res.1, ex3Res.2) ∧
    cancelOrder ex3Res.1.id 9 "changed mind" 1 ex3Res.2 = Except.ok ex3S2 ∧
    (∃ d1, findDish ex3Res.2.dishes 1 = some d1 ∧
      d1.stockQuantity = exDish.stockQuantity
        - ((ex3Res.1.items.filter (fun x => x.dishId == 1)).map OrderItem.quantity).sum) ∧
    (∃ d2, findDish ex3S2.dishes 1 = some d2 ∧
      d2.stockQuantity = exDish.stockQuantity) := by
  have hok : createOrder ex3Req 0 ex3State = Except.ok (ex3Res.1, ex3Res.2) := rfl
  have hcan : cancelOrder ex3Res.1.id 9 "changed mind" 1 ex3Res.2 = Except.ok ex3S2 := rfl
  have hd : findDish ex3State.dishes 1 = some exDish := rfl
  have h := claim3_stock_roundtrip hok (by decide) hcan hd (by decide)
  exact ⟨hok, hcan, h.1, h.2⟩

/-- C8: the pre-save hook numbers a new order one past the count of the
restaurant's stored orders for the same day, so under the sequential
model (one request at a time) the invariant that each restaurant's
daily sequence numbers are exactly 1..count is preserved by every
createOrder, and in particular the sequence numbers within a
restaurant's day are pairwise distinct. -/
theorem claim8_order_numbers {req : CreateReq} {day : Nat} {s : DBState} {o : Order}
    {s1 : DBState}
    (hinv : SeqInv s)
    (hok : createOrder req day s = Except.ok (o, s1)) :
    o.orderNumberSeq = (ordersOfDay s req.restaurantId day).length + 1 ∧
    SeqInv s1 ∧
    (∀ r d, ((ordersOfDay s1 r d).map Order.orderNumberSeq).Nodup) := by
  obtain ⟨items, sub, rr, hv, hr, ho, hs1⟩ := createOrder_ok hok
  subst ho
  subst hs1
  have horders : (createOrderCore req day s items sub rr).2.orders
      = s.orders ++ [newOrder req day s items sub rr] :=
    createOrderCore_orders req day s items sub rr
  have hofd : ∀ r d, ordersOfDay (createOrderCore req day s items sub rr).2 r d
      = ordersOfDay s r d
        ++ (if ((newOrder req day s items sub rr).restaurantId == r
              && (newOrder req day s items sub rr).day == d) = true
            then [newOrder req day s items sub rr] else []) := by
    intro r d
    unfold ordersOfDay
    rw [horders, List.filter_append]
    congr 1
    simp [List.filter_singleton]
  have hinv1 : SeqInv (createOrderCore req day s items sub rr).2 := by
    intro r d
    rw [hofd r d]
    by_cases hc : ((newOrder req day s items sub rr).restaurantId == r
        && (newOrder req day s items sub rr).day == d) = true
    · rw [if_pos hc]
      have hre : req.restaurantId = r := by
        have h5 := ((Bool.and_eq_true _ _).mp hc).1
        simpa using h5
      have hde : day = d := by
        have h6 := ((Bool.and_eq_true _ _).mp hc).2
        simpa using h6
      subst hre
      subst hde
      rw [List.map_append, hinv req.restaurantId day]
      have hlen : (ordersOfDay s req.restaurantId day
          ++ [newOrder req day s items sub rr]).length
          = (ordersOfDay s req.restaurantId day).length + 1 := by simp
      rw [hlen]
      have hseq : List.map Order.orderNumberSeq [newOrder req day s items sub rr]
          = [(ordersOfDay s req.restaurantId day).length + 1] := rfl
      rw [hseq]
      have h3 := @List.range'_concat 1 1 (ordersOfDay s req.restaurantId day).length
      simp only [one_mul] at h3
      rw [Nat.add_comm 1 (ordersOfDay s req.restaurantId day).length] at h3
      exact h3.symm
    · rw [if_neg hc]
      simp only [List.append_nil]
      exact hinv r d
  refine ⟨rfl, hinv1, ?_⟩
  intro r d
  rw [hinv1 r d]
  exact List.nodup_range' 1 _

/-- C8 witness: the first order of a restaurant's day gets sequence
number 1 = count + 1 over the empty store. -/
theorem claim8_witness :
    SeqInv ex8State ∧
    createOrder ex8Req 0 ex8State = Except.ok (ex8Res.1, ex8Res.2) ∧
    ex8Res.1.orderNumberSeq = (ordersOfDay ex8State 0 0).length + 1 := by
  have hinv : SeqInv ex8State := fun r d => rfl
  have hok : createOrder ex8Req 0 ex8State = Except.ok (ex8Res.1, ex8Res.2) := rfl
  exact ⟨hinv, hok, (claim8_order_numbers hinv hok).1⟩

end RestaurantBackend
